import Mathlib

/-!
Shallow embedding of the mock-data generation pipeline of the
Employee Management API (FastAPI + SQLAlchemy backend).

The embedded code is `generate_mock_data` in `src/routers/generate_data.py`,
together with the pydantic validation performed by the create-schemas in
`src/schemas.py` and the row shapes of `src/models.py`.

Modelling conventions:
- Dates are integers (day numbers); `today` is an explicit parameter of the
  pipeline (the Python code reads the current date through faker's "today"
  and `date.today()`).
- Monetary values are rationals; `round2` models Python's `round(x, 2)`.
- Randomness (the `random` module and the faker instance) is an explicit
  oracle: an infinite stream of naturals, rationals and strings indexed by a
  draw counter that the pipeline threads through every call, one index per
  primitive draw, in the evaluation order of the Python source.
- The persistent store is a `DB` value holding the five tables.  The route
  commits after every stage; the driver therefore records the state of the
  last successful commit, which is exactly what `db.rollback()` leaves
  behind when a later stage raises.  Row ids are assigned sequentially from
  1 per table, matching SQLite rowid assignment on tables that were fully
  wiped at the start of the request.
- Any Python exception (ValueError from random.randint/random.sample,
  pydantic ValidationError, ...) is an `Except.error`; the route's
  `except Exception` handler turns it into a single HTTP 500 failure
  result, modelled by the `Except GenError GenStats` component.
-/

namespace MockGen

-- Dates are day numbers (Int).

-- Batteries marks the Rat operations irreducible; the witnesses below
-- evaluate the pipeline on closed inputs, so restore reducibility locally.
attribute [local semireducible] Rat.add Rat.mul Rat.sub Rat.inv Rat.ofScientific

/-- The distinct Python exception sources inside the pipeline. -/
inductive GenError
  | emptyRandint      -- random.randint(a, b) with b < a raises ValueError
  | emptyChoice       -- random.choice([]) raises IndexError
  | sampleTooLarge    -- random.sample(pop, k) with k > len(pop) raises ValueError
  | emptyDateRange    -- faker date_between with start after end
  | validation        -- pydantic ValidationError from a create-schema
  deriving DecidableEq, Repr

deriving instance DecidableEq for Except

/-- The randomness / faker oracle: streams of draws indexed by a counter. -/
structure Oracle where
  nat : Nat → Nat
  rat : Nat → ℚ
  str : Nat → String

/-- Executable floor on ℚ (kernel-reducible form of `Int.floor`). -/
def ratFloor (q : ℚ) : ℤ := q.num / (q.den : ℤ)

/-- Fractional part, used to turn an oracle rational into a [0,1) draw
(`random.random()` / the fractional position of `random.uniform`). -/
def frac (q : ℚ) : ℚ := q - ratFloor q

/-- Python `round(x, 2)`. -/
def round2 (q : ℚ) : ℚ := (ratFloor (q * 100 + 1/2) : ℤ) / 100

/-- `random.uniform(a, b)`: a draw in [a, b]. -/
def uniform (σ : Oracle) (k : Nat) (a b : ℚ) : ℚ := a + frac (σ.rat k) * (b - a)

/-- `random.randint(a, b)`: inclusive range, raises on an empty range. -/
def randint (σ : Oracle) (k a b : Nat) : Except GenError Nat :=
  if b < a then .error .emptyRandint else .ok (a + σ.nat k % (b - a + 1))

/-- `random.choice(l)`: raises on an empty list. -/
def choice {α : Type} (σ : Oracle) (k : Nat) (l : List α) : Except GenError α :=
  match l[σ.nat k % l.length]? with
  | some x => .ok x
  | none => .error .emptyChoice

/-- faker `date_between(s, e)`: a day in [s, e]. -/
def dateBetween (σ : Oracle) (k : Nat) (s e : Int) : Except GenError Int :=
  if e < s then .error .emptyDateRange
  else .ok (s + (σ.nat k % ((e - s).toNat + 1) : Nat))

/-- Draw `n` elements without replacement, one oracle index per pick. -/
def sampleAux {α : Type} (σ : Oracle) : Nat → Nat → List α → Option (List α × Nat)
  | k, 0, _ => some ([], k)
  | k, n+1, pool =>
    match pool[σ.nat k % pool.length]? with
    | none => none
    | some x =>
      match sampleAux σ (k+1) n (pool.eraseIdx (σ.nat k % pool.length)) with
      | none => none
      | some (xs, k2) => some (x :: xs, k2)

/-- `random.sample(pool, n)`: raises when `n` exceeds the population size. -/
def sample {α : Type} (σ : Oracle) (k : Nat) (pool : List α) (n : Nat) :
    Except GenError (List α × Nat) :=
  if pool.length < n then .error .sampleTooLarge
  else
    match sampleAux σ k n pool with
    | some r => .ok r
    | none => .error .sampleTooLarge

/-- `random.shuffle(l)`: a permutation of `l` chosen by the oracle.
(The fallback branch is unreachable: drawing `l.length` elements without
replacement always succeeds.) -/
def shuffle {α : Type} (σ : Oracle) (k : Nat) (l : List α) : List α × Nat :=
  match sampleAux σ k l.length l with
  | some r => r
  | none => (l, k + l.length)

/-- `schemas.DepartmentName` (a closed str-enum). -/
inductive DepartmentName
  | hr | engineering | marketing | finance | sales
  deriving DecidableEq, Repr

def DepartmentName.value : DepartmentName → String
  | .hr => "HR"
  | .engineering => "Engineering"
  | .marketing => "Marketing"
  | .finance => "Finance"
  | .sales => "Sales"

/-- `list(DepartmentName)` in declaration order. -/
def departmentNameMembers : List DepartmentName :=
  [.hr, .engineering, .marketing, .finance, .sales]

def departmentNameValues : List String := departmentNameMembers.map DepartmentName.value

/-- `schemas.ProjectStatus`. -/
inductive ProjectStatus
  | planning | active | completed | onHold
  deriving DecidableEq, Repr

def projectStatusMembers : List ProjectStatus := [.planning, .active, .completed, .onHold]

/-- `schemas.PaymentMethod`. -/
inductive PaymentMethod
  | bankTransfer | check | directDeposit
  deriving DecidableEq, Repr

def paymentMethodMembers : List PaymentMethod := [.bankTransfer, .check, .directDeposit]

/-- `generate_data.JOB_TITLES`. -/
def JOB_TITLES : List String :=
  ["Software Engineer", "HR Manager", "Marketing Specialist",
   "Financial Analyst", "Sales Executive", "Product Manager"]

/-- Assignment roles, source line 148. -/
def roleChoices : List String := ["Lead", "Member", "Contributor"]

/-- `models.Department` row. -/
structure DepartmentRow where
  id : Nat
  name : String
  location : String
  budget : ℚ
  head_of_department : String
  established_date : Int
  employee_count : Int
  deriving DecidableEq, Repr

/-- `models.Employee` row. -/
structure EmployeeRow where
  id : Nat
  first_name : String
  last_name : String
  email : String
  phone : String
  hire_date : Int
  job_title : String
  department_id : Nat
  deriving DecidableEq, Repr

/-- `models.Project` row. -/
structure ProjectRow where
  id : Nat
  name : String
  description : String
  start_date : Int
  end_date : Int
  budget : ℚ
  status : ProjectStatus
  department_id : Nat
  deriving DecidableEq, Repr

/-- `models.Salary` row. -/
structure SalaryRow where
  id : Nat
  employee_id : Nat
  amount : ℚ
  payment_date : Int
  tax_deduction : ℚ
  bonus : ℚ
  payment_method : PaymentMethod
  deriving DecidableEq, Repr

/-- `models.ProjectEmployee` row (the Assignment association). -/
structure ProjectEmployeeRow where
  employee_id : Nat
  project_id : Nat
  role : String
  join_date : Int
  deriving DecidableEq, Repr

/-- The persistent store: the five tables. -/
structure DB where
  departments : List DepartmentRow
  employees : List EmployeeRow
  projects : List ProjectRow
  project_employees : List ProjectEmployeeRow
  salaries : List SalaryRow
  deriving DecidableEq, Repr

def DB.empty : DB := ⟨[], [], [], [], []⟩

/-- pydantic `EmailStr`, abstracted: exactly one `@` with nonempty local and
domain parts.  (No claim depends on the exact email grammar; this only gates
success of a request.) -/
def emailOk (s : String) : Bool :=
  s.data.count '@' == 1 && s.data.head? != some '@' && s.data.getLast? != some '@'

def phoneCharOk (c : Char) : Bool := c.isDigit || c = ' ' || c = '-'

/-- The `EmployeeBase.phone` pattern `^\+?[\d\s-]\x7b10,15\x7d$`. -/
def phoneOk (s : String) : Bool :=
  match s.data with
  | [] => false
  | c :: rest =>
    let body := if c = '+' then rest else c :: rest
    body.all phoneCharOk && decide (10 ≤ body.length) && decide (body.length ≤ 15)

/-- `schemas.DepartmentCreate` validation: `name` must be a member of the
`DepartmentName` enum, `budget` has `gt=0`, `employee_count` has `ge=0`. -/
def departmentCreateOk (r : DepartmentRow) : Bool :=
  departmentNameValues.contains r.name && decide (0 < r.budget) &&
    decide (0 ≤ r.employee_count)

/-- `schemas.EmployeeCreate` validation: name lengths in [2,50], email,
phone pattern, and the `validate_hire_date` validator (no future hire). -/
def employeeCreateOk (today : Int) (r : EmployeeRow) : Bool :=
  decide (2 ≤ r.first_name.length) && decide (r.first_name.length ≤ 50) &&
  decide (2 ≤ r.last_name.length) && decide (r.last_name.length ≤ 50) &&
  emailOk r.email && phoneOk r.phone && decide (r.hire_date ≤ today)

/-- `schemas.ProjectCreate` validation: name/description length caps,
`budget` `gt=0`, and the `validate_end_date` validator. -/
def projectCreateOk (r : ProjectRow) : Bool :=
  decide (r.name.length ≤ 100) && decide (r.description.length ≤ 500) &&
  decide (0 < r.budget) && !decide (r.end_date < r.start_date)

/-- `schemas.SalaryCreate` validation: `amount` `gt=0`,
`tax_deduction` `ge=0`, `bonus` `ge=0`. -/
def salaryCreateOk (r : SalaryRow) : Bool :=
  decide (0 < r.amount) && decide (0 ≤ r.tax_deduction) && decide (0 ≤ r.bonus)

/-- `generate_phone` (source lines 30-31): three randint draws. -/
def generate_phone (σ : Oracle) (k : Nat) : Except GenError (String × Nat) :=
  match randint σ k 200 999 with
  | .error e => .error e
  | .ok a =>
    match randint σ (k+1) 200 999 with
    | .error e => .error e
    | .ok b =>
      match randint σ (k+2) 1000 9999 with
      | .error e => .error e
      | .ok c =>
        .ok ("+1-" ++ toString a ++ "-" ++ toString b ++ "-" ++ toString c, k + 3)

/-- One department record (source lines 60-68 / 77-85): draws for location
(city, state), budget, head, established_date, then `DepartmentCreate`
validation.  `-5y` is modelled as 1825 days. -/
def mkDepartment (σ : Oracle) (today : Int) (epd : Nat) (name : String) (id k : Nat) :
    Except GenError (DepartmentRow × Nat) :=
  let location := σ.str k ++ ", " ++ σ.str (k+1)
  let budget := round2 (uniform σ (k+2) 100000 500000)
  let head := σ.str (k+3)
  match dateBetween σ (k+4) (today - 1825) today with
  | .error e => .error e
  | .ok est =>
    let r : DepartmentRow :=
      { id := id, name := name, location := location, budget := budget,
        head_of_department := head, established_date := est,
        employee_count := (epd : Int) }
    if departmentCreateOk r then .ok (r, k + 5) else .error .validation

/-- First department loop (source lines 58-71): one row per canonical name
taken from the shuffled enum. -/
def genCanonDepartments (σ : Oracle) (today : Int) (epd : Nat) :
    List String → Nat → Nat → Except GenError (List DepartmentRow × Nat)
  | [], _, k => .ok ([], k)
  | name :: rest, id, k =>
    match mkDepartment σ today epd name id k with
    | .error e => .error e
    | .ok (r, k1) =>
      match genCanonDepartments σ today epd rest (id+1) k1 with
      | .error e => .error e
      | .ok (rs, k2) => .ok (r :: rs, k2)

/-- Second department loop (source lines 74-87): a re-sampled canonical name
with a random 1-100 suffix, no uniqueness re-check, then the same
`DepartmentCreate` construction. -/
def genExtraDepartments (σ : Oracle) (today : Int) (epd : Nat)
    (shuffled : List DepartmentName) :
    Nat → Nat → Nat → Except GenError (List DepartmentRow × Nat)
  | 0, _, k => .ok ([], k)
  | n+1, id, k =>
    match choice σ k shuffled with
    | .error e => .error e
    | .ok base =>
      match randint σ (k+1) 1 100 with
      | .error e => .error e
      | .ok suf =>
        match mkDepartment σ today epd (base.value ++ " " ++ toString suf) id (k+2) with
        | .error e => .error e
        | .ok (r, k1) =>
          match genExtraDepartments σ today epd shuffled n (id+1) k1 with
          | .error e => .error e
          | .ok (rs, k2) => .ok (r :: rs, k2)

/-- Stage 1 (source lines 50-89): shuffle the enum, create
`min(departments, 5)` canonical-name rows, then `departments - 5`
suffixed-name rows. -/
def departmentStage (σ : Oracle) (today : Int) (departments epd : Nat) (k : Nat) :
    Except GenError (List DepartmentRow × Nat) :=
  let shuffled := (shuffle σ k departmentNameMembers).1
  let k0 := (shuffle σ k departmentNameMembers).2
  match genCanonDepartments σ today epd
      ((shuffled.take (min departments 5)).map DepartmentName.value) 1 k0 with
  | .error e => .error e
  | .ok (rs, k1) =>
    match genExtraDepartments σ today epd shuffled (departments - 5) (rs.length + 1) k1 with
    | .error e => .error e
    | .ok (rs2, k2) => .ok (rs ++ rs2, k2)

/-- One employee record (source lines 97-109): name/email draws, phone,
hire_date in [department.established_date, today], job title, then
`EmployeeCreate` validation. -/
def mkEmployee (σ : Oracle) (today : Int) (d : DepartmentRow) (id k : Nat) :
    Except GenError (EmployeeRow × Nat) :=
  let fn := σ.str k
  let ln := σ.str (k+1)
  let em := σ.str (k+2)
  match generate_phone σ (k+3) with
  | .error e => .error e
  | .ok (ph, k1) =>
    match dateBetween σ k1 d.established_date today with
    | .error e => .error e
    | .ok hd =>
      match choice σ (k1+1) JOB_TITLES with
      | .error e => .error e
      | .ok jt =>
        let r : EmployeeRow :=
          { id := id, first_name := fn, last_name := ln, email := em, phone := ph,
            hire_date := hd, job_title := jt, department_id := d.id }
        if employeeCreateOk today r then .ok (r, k1 + 2) else .error .validation

def genEmployeesForDept (σ : Oracle) (today : Int) (d : DepartmentRow) :
    Nat → Nat → Nat → Except GenError (List EmployeeRow × Nat)
  | 0, _, k => .ok ([], k)
  | n+1, id, k =>
    match mkEmployee σ today d id k with
    | .error e => .error e
    | .ok (r, k1) =>
      match genEmployeesForDept σ today d n (id+1) k1 with
      | .error e => .error e
      | .ok (rs, k2) => .ok (r :: rs, k2)

/-- Stage 2 (source lines 93-112): `employees_per_dept` employees for every
department, in department order. -/
def employeeStage (σ : Oracle) (today : Int) (epd : Nat) :
    List DepartmentRow → Nat → Nat → Except GenError (List EmployeeRow × Nat)
  | [], _, k => .ok ([], k)
  | d :: ds, id, k =>
    match genEmployeesForDept σ today d epd id k with
    | .error e => .error e
    | .ok (rs, k1) =>
      match employeeStage σ today epd ds (id + rs.length) k1 with
      | .error e => .error e
      | .ok (rs2, k2) => .ok (rs ++ rs2, k2)

/-- One project record (source lines 118-131): start in [-1y, +6m]
(365 / 183 days), end in [start+30, start+180], then `ProjectCreate`
validation. -/
def mkProject (σ : Oracle) (today : Int) (d : DepartmentRow) (id k : Nat) :
    Except GenError (ProjectRow × Nat) :=
  match dateBetween σ k (today - 365) (today + 183) with
  | .error e => .error e
  | .ok sd =>
    let nm := "Project " ++ σ.str (k+1)
    let desc := σ.str (k+2)
    match dateBetween σ (k+3) (sd + 30) (sd + 180) with
    | .error e => .error e
    | .ok ed =>
      let bud := round2 (uniform σ (k+4) 20000 150000)
      match choice σ (k+5) projectStatusMembers with
      | .error e => .error e
      | .ok st =>
        let r : ProjectRow :=
          { id := id, name := nm, description := desc, start_date := sd,
            end_date := ed, budget := bud, status := st, department_id := d.id }
        if projectCreateOk r then .ok (r, k + 6) else .error .validation

def genProjectsForDept (σ : Oracle) (today : Int) (d : DepartmentRow) :
    Nat → Nat → Nat → Except GenError (List ProjectRow × Nat)
  | 0, _, k => .ok ([], k)
  | n+1, id, k =>
    match mkProject σ today d id k with
    | .error e => .error e
    | .ok (r, k1) =>
      match genProjectsForDept σ today d n (id+1) k1 with
      | .error e => .error e
      | .ok (rs, k2) => .ok (r :: rs, k2)

/-- Stage 3 (source lines 114-134): `projects_per_dept` projects for every
department. -/
def projectStage (σ : Oracle) (today : Int) (ppd : Nat) :
    List DepartmentRow → Nat → Nat → Except GenError (List ProjectRow × Nat)
  | [], _, k => .ok ([], k)
  | d :: ds, id, k =>
    match genProjectsForDept σ today d ppd id k with
    | .error e => .error e
    | .ok (rs, k1) =>
      match projectStage σ today ppd ds (id + rs.length) k1 with
      | .error e => .error e
      | .ok (rs2, k2) => .ok (rs ++ rs2, k2)

/-- One assignment record (source lines 144-153): role choice and a
join_date within 30 days of the project start. -/
def mkAssignment (σ : Oracle) (p : ProjectRow) (e : EmployeeRow) (k : Nat) :
    Except GenError (ProjectEmployeeRow × Nat) :=
  match choice σ k roleChoices with
  | .error er => .error er
  | .ok role =>
    match dateBetween σ (k+1) p.start_date (p.start_date + 30) with
    | .error er => .error er
    | .ok jd =>
      .ok ({ employee_id := e.id, project_id := p.id, role := role, join_date := jd }, k + 2)

def genAssignmentsForAssignees (σ : Oracle) (p : ProjectRow) :
    List EmployeeRow → Nat → Except GenError (List ProjectEmployeeRow × Nat)
  | [], k => .ok ([], k)
  | e :: es, k =>
    match mkAssignment σ p e k with
    | .error er => .error er
    | .ok (r, k1) =>
      match genAssignmentsForAssignees σ p es k1 with
      | .error er => .error er
      | .ok (rs, k2) => .ok (r :: rs, k2)

/-- Assignments for one project (source lines 137-153): sample
`randint(2, min(5, employees_per_dept))` distinct employees from the
project's department. -/
def assignmentsForProject (σ : Oracle) (epd : Nat) (emps : List EmployeeRow)
    (p : ProjectRow) (k : Nat) : Except GenError (List ProjectEmployeeRow × Nat) :=
  let pool := emps.filter (fun e => e.department_id == p.department_id)
  match randint σ k 2 (min 5 epd) with
  | .error er => .error er
  | .ok cnt =>
    match sample σ (k+1) pool cnt with
    | .error er => .error er
    | .ok (assignees, k1) => genAssignmentsForAssignees σ p assignees k1

/-- Stage 4 (source lines 136-154). -/
def assignmentStage (σ : Oracle) (epd : Nat) (emps : List EmployeeRow) :
    List ProjectRow → Nat → Except GenError (List ProjectEmployeeRow × Nat)
  | [], k => .ok ([], k)
  | p :: ps, k =>
    match assignmentsForProject σ epd emps p k with
    | .error er => .error er
    | .ok (rs, k1) =>
      match assignmentStage σ epd emps ps k1 with
      | .error er => .error er
      | .ok (rs2, k2) => .ok (rs ++ rs2, k2)

/-- One salary record (source lines 160-170): amount, payment_date in
[hire_date, today], tax, bonus, payment method, then `SalaryCreate`
validation.  `base` is the per-employee base salary. -/
def mkSalary (σ : Oracle) (today : Int) (base : ℚ) (e : EmployeeRow) (id k : Nat) :
    Except GenError (SalaryRow × Nat) :=
  let amount := round2 (base * uniform σ k 0.9 1.1)
  match dateBetween σ (k+1) e.hire_date today with
  | .error er => .error er
  | .ok pd =>
    let tax := round2 (base * 0.2 * uniform σ (k+2) 0.8 1.2)
    let bonus := round2 (base * 0.1 * frac (σ.rat (k+3)))
    match choice σ (k+4) paymentMethodMembers with
    | .error er => .error er
    | .ok pm =>
      let r : SalaryRow :=
        { id := id, employee_id := e.id, amount := amount, payment_date := pd,
          tax_deduction := tax, bonus := bonus, payment_method := pm }
      if salaryCreateOk r then .ok (r, k + 5) else .error .validation

def genSalariesForEmp (σ : Oracle) (today : Int) (base : ℚ) (e : EmployeeRow) :
    Nat → Nat → Nat → Except GenError (List SalaryRow × Nat)
  | 0, _, k => .ok ([], k)
  | n+1, id, k =>
    match mkSalary σ today base e id k with
    | .error er => .error er
    | .ok (r, k1) =>
      match genSalariesForEmp σ today base e n (id+1) k1 with
      | .error er => .error er
      | .ok (rs, k2) => .ok (r :: rs, k2)

/-- Stage 5 (source lines 156-171): one base salary draw per employee, then
`salaries_per_employee` rows derived from it. -/
def salaryStage (σ : Oracle) (today : Int) (spe : Nat) :
    List EmployeeRow → Nat → Nat → Except GenError (List SalaryRow × Nat)
  | [], _, k => .ok ([], k)
  | e :: es, id, k =>
    match genSalariesForEmp σ today (uniform σ k 45000 120000) e spe id (k+1) with
    | .error er => .error er
    | .ok (rs, k1) =>
      match salaryStage σ today spe es (id + rs.length) k1 with
      | .error er => .error er
      | .ok (rs2, k2) => .ok (rs ++ rs2, k2)

/-- The success payload of the route (source lines 173-181). -/
structure GenStats where
  departments : Nat
  employees : Nat
  projects : Nat
  salaries : Nat
  deriving DecidableEq, Repr

/-- The four query parameters of the route (non-negative per the design
contract; FastAPI defaults 3/5/2/3). -/
structure Params where
  departments : Nat
  employees_per_dept : Nat
  projects_per_dept : Nat
  salaries_per_employee : Nat
  deriving DecidableEq, Repr

/-- `generate_mock_data` (source lines 33-188).  Returns the route result
and the persisted store.  The wipe (lines 42-48) and every stage commit;
when a stage raises, `db.rollback()` leaves exactly the state of the last
commit, which is the `DB` component returned on the error paths. -/
def generate_mock_data (σ : Oracle) (today : Int) (p : Params) (db0 : DB) :
    Except GenError GenStats × DB :=
  -- lines 43-48: delete all five tables, children first, then commit
  let db1 : DB :=
    { db0 with project_employees := [], salaries := [], projects := [],
               employees := [], departments := [] }
  match departmentStage σ today p.departments p.employees_per_dept 0 with
  | .error e => (.error e, db1)
  | .ok (depts, k1) =>
    let db2 : DB := { db1 with departments := depts }
    match employeeStage σ today p.employees_per_dept depts 1 k1 with
    | .error e => (.error e, db2)
    | .ok (emps, k2) =>
      let db3 : DB := { db2 with employees := emps }
      match projectStage σ today p.projects_per_dept depts 1 k2 with
      | .error e => (.error e, db3)
      | .ok (projs, k3) =>
        let db4 : DB := { db3 with projects := projs }
        match assignmentStage σ p.employees_per_dept emps projs k3 with
        | .error e => (.error e, db4)
        | .ok (asgs, k4) =>
          let db5 : DB := { db4 with project_employees := asgs }
          match salaryStage σ today p.salaries_per_employee emps 1 k4 with
          | .error e => (.error e, db5)
          | .ok (sals, k5) =>
            let db6 : DB := { db5 with salaries := sals }
            (.ok { departments := depts.length, employees := emps.length,
                   projects := projs.length,
                   salaries := emps.length * p.salaries_per_employee }, db6)

/-- A concrete oracle used for evaluating the pipeline on closed inputs. -/
def demoOracle : Oracle := ⟨fun _ => 0, fun _ => 0, fun _ => "a@b"⟩

/-- A concrete non-empty pre-request store. -/
def dbPre : DB :=
  ⟨[⟨1, "HR", "Boston, MA", 1, "Alice Smith", 0, 1⟩], [], [], [], []⟩

/-- The salary derivation shape of stage 5 (source lines 158-167): the row is
derived from a base salary by fresh per-row draws, each rounded to two
decimals. -/
def salaryFromBase (base : ℚ) (s : SalaryRow) : Prop :=
  ∃ u v w : ℚ, 0.9 ≤ u ∧ u ≤ 1.1 ∧ 0.8 ≤ v ∧ v ≤ 1.2 ∧ 0 ≤ w ∧ w ≤ 1 ∧
    s.amount = round2 (base * u) ∧ s.tax_deduction = round2 (base * 0.2 * v) ∧
    s.bonus = round2 (base * 0.1 * w)

/-! ### Lemmas about the randomness primitives -/

theorem mem_of_mem_eraseIdx {α : Type} {l : List α} {i : Nat} {x : α}
    (h : x ∈ l.eraseIdx i) : x ∈ l := by
  rcases List.mem_eraseIdx_iff_getElem.1 h with ⟨j, hj, _, hx⟩
  exact hx ▸ List.getElem_mem hj

theorem randint_ok_bounds {σ : Oracle} {k a b v : Nat}
    (h : randint σ k a b = .ok v) : a ≤ v ∧ v ≤ b := by
  unfold randint at h
  split at h
  · simp at h
  · rename_i hba
    simp only [Except.ok.injEq] at h
    subst h
    have := Nat.mod_lt (σ.nat k) (y := b - a + 1) (by omega)
    omega

theorem randint_error {σ : Oracle} {k a b : Nat} (h : b < a) :
    randint σ k a b = .error .emptyRandint := by
  simp [randint, h]

theorem dateBetween_ok_of_le {σ : Oracle} {k : Nat} {s e : Int} (h : s ≤ e) :
    dateBetween σ k s e = .ok (s + (σ.nat k % ((e - s).toNat + 1) : Nat)) := by
  simp [dateBetween, not_lt.2 h]

theorem dateBetween_ok_bounds {σ : Oracle} {k : Nat} {s e v : Int}
    (h : dateBetween σ k s e = .ok v) : s ≤ v ∧ v ≤ e := by
  unfold dateBetween at h
  split at h
  · simp at h
  · rename_i hse
    simp only [Except.ok.injEq] at h
    subst h
    push_neg at hse
    have hlt : σ.nat k % ((e - s).toNat + 1) < (e - s).toNat + 1 :=
      Nat.mod_lt _ (Nat.succ_pos _)
    have h2 : ((e - s).toNat : ℤ) = e - s := Int.toNat_of_nonneg (by omega)
    omega

theorem ratFloor_eq (q : ℚ) : ratFloor q = ⌊q⌋ := Rat.floor_def.symm

theorem frac_nonneg (q : ℚ) : 0 ≤ frac q := by
  unfold frac
  rw [ratFloor_eq]
  have := Int.floor_le q
  linarith

theorem frac_lt_one (q : ℚ) : frac q < 1 := by
  unfold frac
  rw [ratFloor_eq]
  have := Int.lt_floor_add_one q
  linarith

theorem le_uniform {a b : ℚ} (σ : Oracle) (k : Nat) (hab : a ≤ b) :
    a ≤ uniform σ k a b := by
  unfold uniform
  nlinarith [frac_nonneg (σ.rat k)]

theorem uniform_le {a b : ℚ} (σ : Oracle) (k : Nat) (hab : a ≤ b) :
    uniform σ k a b ≤ b := by
  unfold uniform
  nlinarith [frac_nonneg (σ.rat k), frac_lt_one (σ.rat k)]

theorem round2_pos_of_one_le {q : ℚ} (h : 1 ≤ q) : 0 < round2 q := by
  unfold round2
  rw [ratFloor_eq]
  have h100 : (100 : ℤ) ≤ ⌊q * 100 + 1/2⌋ := by
    rw [Int.le_floor]
    push_cast
    linarith
  have hc : (100 : ℚ) ≤ ((⌊q * 100 + 1/2⌋ : ℤ) : ℚ) := by exact_mod_cast h100
  exact div_pos (by linarith) (by norm_num)

theorem choice_ok_mem {α : Type} {σ : Oracle} {k : Nat} {l : List α} {x : α}
    (h : choice σ k l = .ok x) : x ∈ l := by
  unfold choice at h
  split at h
  · rename_i hget
    simp only [Except.ok.injEq] at h
    subst h
    exact List.getElem?_mem hget
  · simp at h

theorem choice_ok_of_ne_nil {α : Type} (σ : Oracle) (k : Nat) {l : List α} (h : l ≠ []) :
    ∃ x ∈ l, choice σ k l = .ok x := by
  have hlt : σ.nat k % l.length < l.length := Nat.mod_lt _ (List.length_pos.2 h)
  refine ⟨l[σ.nat k % l.length], List.getElem_mem hlt, ?_⟩
  unfold choice
  simp [List.getElem?_eq_getElem hlt]

theorem sampleAux_mem {α : Type} {σ : Oracle} :
    ∀ {n k : Nat} {pool xs : List α} {k2 : Nat},
      sampleAux σ k n pool = some (xs, k2) → ∀ x ∈ xs, x ∈ pool := by
  intro n
  induction n with
  | zero =>
    intro k pool xs k2 h x hx
    simp only [sampleAux, Option.some.injEq, Prod.mk.injEq] at h
    obtain ⟨h1, _⟩ := h
    subst h1
    simp at hx
  | succ n ih =>
    intro k pool xs k2 h x hx
    simp only [sampleAux] at h
    split at h
    · simp at h
    · rename_i y hy
      split at h
      · simp at h
      · rename_i xs' k' hr
        simp only [Option.some.injEq, Prod.mk.injEq] at h
        obtain ⟨h1, _⟩ := h
        subst h1
        rcases List.mem_cons.1 hx with rfl | hx'
        · exact List.getElem?_mem hy
        · exact mem_of_mem_eraseIdx (ih hr x hx')

theorem sample_ok_mem {α : Type} {σ : Oracle} {k : Nat} {pool xs : List α}
    {n k2 : Nat} (h : sample σ k pool n = .ok (xs, k2)) : ∀ x ∈ xs, x ∈ pool := by
  unfold sample at h
  split at h
  · simp at h
  · split at h
    · rename_i r hr
      obtain ⟨xs', k'⟩ := r
      simp only [Except.ok.injEq, Prod.mk.injEq] at h
      obtain ⟨h1, h2⟩ := h
      subst h1
      exact sampleAux_mem hr
    · simp at h

theorem perm_getElem_cons_eraseIdx {α : Type} (l : List α) (i : Nat) (h : i < l.length) :
    l.Perm (l[i] :: l.eraseIdx i) := by
  conv_lhs => rw [← List.take_append_drop i l]
  rw [List.eraseIdx_eq_take_drop_succ]
  have hd : List.drop i l = l[i] :: List.drop (i+1) l := (List.getElem_cons_drop l i h).symm
  rw [hd]
  exact List.perm_middle

theorem sampleAux_perm {α : Type} {σ : Oracle} :
    ∀ {n k : Nat} {pool xs : List α} {k2 : Nat}, n = pool.length →
      sampleAux σ k n pool = some (xs, k2) → xs.Perm pool := by
  intro n
  induction n with
  | zero =>
    intro k pool xs k2 hn h
    simp only [sampleAux, Option.some.injEq, Prod.mk.injEq] at h
    obtain ⟨h1, _⟩ := h
    subst h1
    cases pool with
    | nil => exact List.Perm.refl _
    | cons a l => simp at hn
  | succ n ih =>
    intro k pool xs k2 hn h
    simp only [sampleAux] at h
    split at h
    · simp at h
    · rename_i y hy
      split at h
      · simp at h
      · rename_i xs' k' hr
        simp only [Option.some.injEq, Prod.mk.injEq] at h
        obtain ⟨h1, _⟩ := h
        subst h1
        have hi : σ.nat k % pool.length < pool.length := by
          rcases List.getElem?_eq_some.1 hy with ⟨hlt, _⟩
          exact hlt
        have hlen : n = (pool.eraseIdx (σ.nat k % pool.length)).length := by
          rw [List.length_eraseIdx]
          simp only [hi, if_true]
          omega
        have hperm := ih hlen hr
        have hyv : y = pool[σ.nat k % pool.length] := by
          rcases List.getElem?_eq_some.1 hy with ⟨_, hv⟩
          exact hv.symm
        subst hyv
        exact ((hperm.cons _).trans (perm_getElem_cons_eraseIdx pool _ hi).symm)

theorem shuffle_perm {α : Type} (σ : Oracle) (k : Nat) (l : List α) :
    (shuffle σ k l).1.Perm l := by
  unfold shuffle
  split
  · rename_i xs k2 hr
    exact sampleAux_perm rfl hr
  · exact List.Perm.refl l


/-! ### Department stage lemmas -/

theorem range'_append_one (s m n : Nat) :
    List.range' s m ++ List.range' (s + m) n = List.range' s (m + n) := by
  have h := List.range'_append s m n 1
  simp only [Nat.one_mul] at h
  rw [Nat.add_comm m n]
  exact h

theorem mkDepartment_ok_fields {σ : Oracle} {today : Int} {epd : Nat} {name : String}
    {id k : Nat} {r : DepartmentRow} {k1 : Nat}
    (h : mkDepartment σ today epd name id k = .ok (r, k1)) :
    r.id = id ∧ r.name = name ∧ departmentCreateOk r = true := by
  unfold mkDepartment at h
  simp only [] at h
  split at h
  · simp at h
  · rename_i est hest
    split at h
    · rename_i hok
      simp only [Except.ok.injEq, Prod.mk.injEq] at h
      obtain ⟨h1, _⟩ := h
      subst h1
      exact ⟨rfl, rfl, hok⟩
    · simp at h

theorem genCanonDepartments_spec {σ : Oracle} {today : Int} {epd : Nat} :
    ∀ {names : List String} {id k : Nat} {rs : List DepartmentRow} {k2 : Nat},
      genCanonDepartments σ today epd names id k = .ok (rs, k2) →
      rs.map (fun r => r.id) = List.range' id rs.length ∧ rs.length = names.length := by
  intro names
  induction names with
  | nil =>
    intro id k rs k2 h
    simp only [genCanonDepartments, Except.ok.injEq, Prod.mk.injEq] at h
    obtain ⟨h1, _⟩ := h
    subst h1
    simp
  | cons name rest ih =>
    intro id k rs k2 h
    simp only [genCanonDepartments] at h
    split at h
    · simp at h
    · rename_i r k1 hm
      split at h
      · simp at h
      · rename_i rs' k2' hg
        simp only [Except.ok.injEq, Prod.mk.injEq] at h
        obtain ⟨h1, _⟩ := h
        subst h1
        obtain ⟨hids, hlen⟩ := ih hg
        obtain ⟨hid, _, _⟩ := mkDepartment_ok_fields hm
        refine ⟨?_, by simp [hlen]⟩
        simp only [List.map_cons, List.length_cons, List.range'_succ, hid, hids]

theorem genExtraDepartments_spec {σ : Oracle} {today : Int} {epd : Nat}
    {shuffled : List DepartmentName} :
    ∀ {n id k : Nat} {rs : List DepartmentRow} {k2 : Nat},
      genExtraDepartments σ today epd shuffled n id k = .ok (rs, k2) →
      rs.map (fun r => r.id) = List.range' id rs.length ∧ rs.length = n := by
  intro n
  induction n with
  | zero =>
    intro id k rs k2 h
    simp only [genExtraDepartments, Except.ok.injEq, Prod.mk.injEq] at h
    obtain ⟨h1, _⟩ := h
    subst h1
    simp
  | succ n ih =>
    intro id k rs k2 h
    simp only [genExtraDepartments] at h
    split at h
    · simp at h
    · rename_i base hbase
      split at h
      · simp at h
      · rename_i suf hsuf
        split at h
        · simp at h
        · rename_i r k1 hm
          split at h
          · simp at h
          · rename_i rs' k2' hg
            simp only [Except.ok.injEq, Prod.mk.injEq] at h
            obtain ⟨h1, _⟩ := h
            subst h1
            obtain ⟨hids, hlen⟩ := ih hg
            obtain ⟨hid, _, _⟩ := mkDepartment_ok_fields hm
            refine ⟨?_, by simp [hlen]⟩
            simp only [List.map_cons, List.length_cons, List.range'_succ, hid, hids]

theorem departmentStage_spec {σ : Oracle} {today : Int} {d epd k : Nat}
    {rs : List DepartmentRow} {k2 : Nat}
    (h : departmentStage σ today d epd k = .ok (rs, k2)) :
    rs.map (fun r => r.id) = List.range' 1 rs.length ∧ rs.length = d := by
  unfold departmentStage at h
  simp only [] at h
  split at h
  · simp at h
  · rename_i rs1 k1 hc
    split at h
    · simp at h
    · rename_i rs2 k2' he
      simp only [Except.ok.injEq, Prod.mk.injEq] at h
      obtain ⟨h1, _⟩ := h
      subst h1
      obtain ⟨hids1, hlen1⟩ := genCanonDepartments_spec hc
      obtain ⟨hids2, hlen2⟩ := genExtraDepartments_spec he
      have hshuf : (shuffle σ k departmentNameMembers).1.length = 5 :=
        (shuffle_perm σ k departmentNameMembers).length_eq
      have hlen1' : rs1.length = min d 5 := by
        rw [hlen1, List.length_map, List.length_take, hshuf]
        omega
      constructor
      · rw [List.map_append, hids1, hids2, List.length_append]
        rw [show rs1.length + 1 = 1 + rs1.length by omega]
        exact range'_append_one 1 rs1.length rs2.length
      · rw [List.length_append]
        omega

theorem departmentStage_ids_nodup {σ : Oracle} {today : Int} {d epd k : Nat}
    {rs : List DepartmentRow} {k2 : Nat}
    (h : departmentStage σ today d epd k = .ok (rs, k2)) :
    (rs.map (fun r => r.id)).Nodup := by
  rw [(departmentStage_spec h).1]
  exact List.nodup_range' _ _

/-! ### Employee stage lemmas -/

theorem mkEmployee_ok_fields {σ : Oracle} {today : Int} {d : DepartmentRow}
    {id k : Nat} {r : EmployeeRow} {k1 : Nat}
    (h : mkEmployee σ today d id k = .ok (r, k1)) :
    r.id = id ∧ r.department_id = d.id ∧ d.established_date ≤ r.hire_date ∧
      r.hire_date ≤ today := by
  unfold mkEmployee at h
  simp only [] at h
  split at h
  · simp at h
  · rename_i ph k1' hph
    split at h
    · simp at h
    · rename_i hd hhd
      split at h
      · simp at h
      · rename_i jt hjt
        split at h
        · rename_i hok
          simp only [Except.ok.injEq, Prod.mk.injEq] at h
          obtain ⟨h1, _⟩ := h
          subst h1
          obtain ⟨hlo, hhi⟩ := dateBetween_ok_bounds hhd
          exact ⟨rfl, rfl, hlo, hhi⟩
        · simp at h

theorem genEmployeesForDept_spec {σ : Oracle} {today : Int} {d : DepartmentRow} :
    ∀ {n id k : Nat} {rs : List EmployeeRow} {k2 : Nat},
      genEmployeesForDept σ today d n id k = .ok (rs, k2) →
      rs.map (fun r => r.id) = List.range' id rs.length ∧ rs.length = n ∧
        ∀ e ∈ rs, e.department_id = d.id ∧ d.established_date ≤ e.hire_date ∧
          e.hire_date ≤ today := by
  intro n
  induction n with
  | zero =>
    intro id k rs k2 h
    simp only [genEmployeesForDept, Except.ok.injEq, Prod.mk.injEq] at h
    obtain ⟨h1, _⟩ := h
    subst h1
    simp
  | succ n ih =>
    intro id k rs k2 h
    simp only [genEmployeesForDept] at h
    split at h
    · simp at h
    · rename_i r k1 hm
      split at h
      · simp at h
      · rename_i rs' k2' hg
        simp only [Except.ok.injEq, Prod.mk.injEq] at h
        obtain ⟨h1, _⟩ := h
        subst h1
        obtain ⟨hids, hlen, hall⟩ := ih hg
        obtain ⟨hid, hdep, hlo, hhi⟩ := mkEmployee_ok_fields hm
        refine ⟨?_, by simp [hlen], ?_⟩
        · simp only [List.map_cons, List.length_cons, List.range'_succ, hid, hids]
        · intro e he
          rcases List.mem_cons.1 he with rfl | he'
          · exact ⟨hdep, hlo, hhi⟩
          · exact hall e he'

theorem employeeStage_spec {σ : Oracle} {today : Int} {epd : Nat} :
    ∀ {ds : List DepartmentRow} {id k : Nat} {rs : List EmployeeRow} {k2 : Nat},
      employeeStage σ today epd ds id k = .ok (rs, k2) →
      rs.map (fun r => r.id) = List.range' id rs.length ∧ rs.length = ds.length * epd ∧
        ∀ e ∈ rs, ∃ dp ∈ ds, e.department_id = dp.id ∧
          dp.established_date ≤ e.hire_date ∧ e.hire_date ≤ today := by
  intro ds
  induction ds with
  | nil =>
    intro id k rs k2 h
    simp only [employeeStage, Except.ok.injEq, Prod.mk.injEq] at h
    obtain ⟨h1, _⟩ := h
    subst h1
    simp
  | cons dp ds ih =>
    intro id k rs k2 h
    simp only [employeeStage] at h
    split at h
    · simp at h
    · rename_i rs1 k1 hg
      split at h
      · simp at h
      · rename_i rs2 k2' hrest
        simp only [Except.ok.injEq, Prod.mk.injEq] at h
        obtain ⟨h1, _⟩ := h
        subst h1
        obtain ⟨hids1, hlen1, hall1⟩ := genEmployeesForDept_spec hg
        obtain ⟨hids2, hlen2, hall2⟩ := ih hrest
        refine ⟨?_, ?_, ?_⟩
        · rw [List.map_append, hids1, hids2, List.length_append]
          rw [show id + rs1.length = id + rs1.length from rfl]
          exact range'_append_one id rs1.length rs2.length
        · rw [List.length_append, hlen1, hlen2, List.length_cons]
          ring
        · intro e he
          rcases List.mem_append.1 he with he1 | he2
          · exact ⟨dp, List.mem_cons_self _ _, hall1 e he1⟩
          · obtain ⟨dp', hdp', hprops⟩ := hall2 e he2
            exact ⟨dp', List.mem_cons_of_mem _ hdp', hprops⟩

theorem employeeStage_ids_nodup {σ : Oracle} {today : Int} {epd : Nat}
    {ds : List DepartmentRow} {id k : Nat} {rs : List EmployeeRow} {k2 : Nat}
    (h : employeeStage σ today epd ds id k = .ok (rs, k2)) :
    (rs.map (fun r => r.id)).Nodup := by
  rw [(employeeStage_spec h).1]
  exact List.nodup_range' _ _

/-! ### Project stage lemmas -/

theorem mkProject_ok_fields {σ : Oracle} {today : Int} {d : DepartmentRow}
    {id k : Nat} {r : ProjectRow} {k1 : Nat}
    (h : mkProject σ today d id k = .ok (r, k1)) :
    r.id = id ∧ r.department_id = d.id := by
  unfold mkProject at h
  simp only [] at h
  split at h
  · simp at h
  · rename_i sd hsd
    split at h
    · simp at h
    · rename_i ed hed
      split at h
      · simp at h
      · rename_i st hst
        split at h
        · rename_i hok
          simp only [Except.ok.injEq, Prod.mk.injEq] at h
          obtain ⟨h1, _⟩ := h
          subst h1
          exact ⟨rfl, rfl⟩
        · simp at h

theorem genProjectsForDept_spec {σ : Oracle} {today : Int} {d : DepartmentRow} :
    ∀ {n id k : Nat} {rs : List ProjectRow} {k2 : Nat},
      genProjectsForDept σ today d n id k = .ok (rs, k2) →
      rs.map (fun r => r.id) = List.range' id rs.length ∧ rs.length = n := by
  intro n
  induction n with
  | zero =>
    intro id k rs k2 h
    simp only [genProjectsForDept, Except.ok.injEq, Prod.mk.injEq] at h
    obtain ⟨h1, _⟩ := h
    subst h1
    simp
  | succ n ih =>
    intro id k rs k2 h
    simp only [genProjectsForDept] at h
    split at h
    · simp at h
    · rename_i r k1 hm
      split at h
      · simp at h
      · rename_i rs' k2' hg
        simp only [Except.ok.injEq, Prod.mk.injEq] at h
        obtain ⟨h1, _⟩ := h
        subst h1
        obtain ⟨hids, hlen⟩ := ih hg
        obtain ⟨hid, _⟩ := mkProject_ok_fields hm
        refine ⟨?_, by simp [hlen]⟩
        simp only [List.map_cons, List.length_cons, List.range'_succ, hid, hids]

theorem projectStage_spec {σ : Oracle} {today : Int} {ppd : Nat} :
    ∀ {ds : List DepartmentRow} {id k : Nat} {rs : List ProjectRow} {k2 : Nat},
      projectStage σ today ppd ds id k = .ok (rs, k2) →
      rs.map (fun r => r.id) = List.range' id rs.length ∧
        rs.length = ds.length * ppd := by
  intro ds
  induction ds with
  | nil =>
    intro id k rs k2 h
    simp only [projectStage, Except.ok.injEq, Prod.mk.injEq] at h
    obtain ⟨h1, _⟩ := h
    subst h1
    simp
  | cons dp ds ih =>
    intro id k rs k2 h
    simp only [projectStage] at h
    split at h
    · simp at h
    · rename_i rs1 k1 hg
      split at h
      · simp at h
      · rename_i rs2 k2' hrest
        simp only [Except.ok.injEq, Prod.mk.injEq] at h
        obtain ⟨h1, _⟩ := h
        subst h1
        obtain ⟨hids1, hlen1⟩ := genProjectsForDept_spec hg
        obtain ⟨hids2, hlen2⟩ := ih hrest
        refine ⟨?_, ?_⟩
        · rw [List.map_append, hids1, hids2, List.length_append]
          exact range'_append_one id rs1.length rs2.length
        · rw [List.length_append, hlen1, hlen2, List.length_cons]
          ring

theorem projectStage_ids_nodup {σ : Oracle} {today : Int} {ppd : Nat}
    {ds : List DepartmentRow} {id k : Nat} {rs : List ProjectRow} {k2 : Nat}
    (h : projectStage σ today ppd ds id k = .ok (rs, k2)) :
    (rs.map (fun r => r.id)).Nodup := by
  rw [(projectStage_spec h).1]
  exact List.nodup_range' _ _

/-! ### Assignment stage lemmas -/

theorem mkAssignment_ok_fields {σ : Oracle} {p : ProjectRow} {e : EmployeeRow}
    {k : Nat} {r : ProjectEmployeeRow} {k1 : Nat}
    (h : mkAssignment σ p e k = .ok (r, k1)) :
    r.employee_id = e.id ∧ r.project_id = p.id := by
  unfold mkAssignment at h
  split at h
  · simp at h
  · rename_i role hrole
    split at h
    · simp at h
    · rename_i jd hjd
      simp only [Except.ok.injEq, Prod.mk.injEq] at h
      obtain ⟨h1, _⟩ := h
      subst h1
      exact ⟨rfl, rfl⟩

theorem genAssignmentsForAssignees_spec {σ : Oracle} {p : ProjectRow} :
    ∀ {assignees : List EmployeeRow} {k : Nat} {rs : List ProjectEmployeeRow} {k2 : Nat},
      genAssignmentsForAssignees σ p assignees k = .ok (rs, k2) →
      ∀ a ∈ rs, ∃ e ∈ assignees, a.employee_id = e.id ∧ a.project_id = p.id := by
  intro assignees
  induction assignees with
  | nil =>
    intro k rs k2 h a ha
    simp only [genAssignmentsForAssignees, Except.ok.injEq, Prod.mk.injEq] at h
    obtain ⟨h1, _⟩ := h
    subst h1
    simp at ha
  | cons e es ih =>
    intro k rs k2 h a ha
    simp only [genAssignmentsForAssignees] at h
    split at h
    · simp at h
    · rename_i r k1 hm
      split at h
      · simp at h
      · rename_i rs' k2' hg
        simp only [Except.ok.injEq, Prod.mk.injEq] at h
        obtain ⟨h1, _⟩ := h
        subst h1
        rcases List.mem_cons.1 ha with rfl | ha'
        · obtain ⟨he, hp⟩ := mkAssignment_ok_fields hm
          exact ⟨e, List.mem_cons_self _ _, he, hp⟩
        · obtain ⟨e', he', hprops⟩ := ih hg a ha'
          exact ⟨e', List.mem_cons_of_mem _ he', hprops⟩

theorem assignmentsForProject_spec {σ : Oracle} {epd : Nat} {emps : List EmployeeRow}
    {p : ProjectRow} {k : Nat} {rs : List ProjectEmployeeRow} {k2 : Nat}
    (h : assignmentsForProject σ epd emps p k = .ok (rs, k2)) :
    ∀ a ∈ rs, ∃ e ∈ emps, e.department_id = p.department_id ∧
      a.employee_id = e.id ∧ a.project_id = p.id := by
  unfold assignmentsForProject at h
  simp only [] at h
  split at h
  · simp at h
  · rename_i cnt hcnt
    split at h
    · simp at h
    · rename_i assignees k1 hsmp
      intro a ha
      obtain ⟨e, he, hprops⟩ := genAssignmentsForAssignees_spec h a ha
      have hepool := sample_ok_mem hsmp e he
      have := List.mem_filter.1 hepool
      obtain ⟨hemem, hbeq⟩ := this
      refine ⟨e, hemem, ?_, hprops⟩
      simpa using hbeq

theorem assignmentStage_spec {σ : Oracle} {epd : Nat} {emps : List EmployeeRow} :
    ∀ {ps : List ProjectRow} {k : Nat} {rs : List ProjectEmployeeRow} {k2 : Nat},
      assignmentStage σ epd emps ps k = .ok (rs, k2) →
      ∀ a ∈ rs, ∃ p ∈ ps, ∃ e ∈ emps, e.department_id = p.department_id ∧
        a.employee_id = e.id ∧ a.project_id = p.id := by
  intro ps
  induction ps with
  | nil =>
    intro k rs k2 h a ha
    simp only [assignmentStage, Except.ok.injEq, Prod.mk.injEq] at h
    obtain ⟨h1, _⟩ := h
    subst h1
    simp at ha
  | cons p ps ih =>
    intro k rs k2 h a ha
    simp only [assignmentStage] at h
    split at h
    · simp at h
    · rename_i rs1 k1 hfp
      split at h
      · simp at h
      · rename_i rs2 k2' hrest
        simp only [Except.ok.injEq, Prod.mk.injEq] at h
        obtain ⟨h1, _⟩ := h
        subst h1
        rcases List.mem_append.1 ha with ha1 | ha2
        · obtain ⟨e, he, hprops⟩ := assignmentsForProject_spec hfp a ha1
          exact ⟨p, List.mem_cons_self _ _, e, he, hprops⟩
        · obtain ⟨p', hp', rest⟩ := ih hrest a ha2
          exact ⟨p', List.mem_cons_of_mem _ hp', rest⟩

/-! ### Salary stage lemmas -/

theorem mkSalary_ok_fields {σ : Oracle} {today : Int} {base : ℚ} {e : EmployeeRow}
    {id k : Nat} {r : SalaryRow} {k1 : Nat}
    (h : mkSalary σ today base e id k = .ok (r, k1)) :
    r.id = id ∧ r.employee_id = e.id ∧ e.hire_date ≤ r.payment_date ∧
      salaryCreateOk r = true ∧ salaryFromBase base r := by
  unfold mkSalary at h
  simp only [] at h
  split at h
  · simp at h
  · rename_i pd hpd
    split at h
    · simp at h
    · rename_i pm hpm
      split at h
      · rename_i hok
        simp only [Except.ok.injEq, Prod.mk.injEq] at h
        obtain ⟨h1, _⟩ := h
        subst h1
        obtain ⟨hlo, _⟩ := dateBetween_ok_bounds hpd
        refine ⟨rfl, rfl, hlo, hok, ?_⟩
        refine ⟨uniform σ k 0.9 1.1, uniform σ (k+2) 0.8 1.2, frac (σ.rat (k+3)),
          le_uniform σ k (by norm_num), uniform_le σ k (by norm_num),
          le_uniform σ (k+2) (by norm_num), uniform_le σ (k+2) (by norm_num),
          frac_nonneg _, le_of_lt (frac_lt_one _), rfl, rfl, rfl⟩
      · simp at h

theorem genSalariesForEmp_spec {σ : Oracle} {today : Int} {base : ℚ} {e : EmployeeRow} :
    ∀ {n id k : Nat} {rs : List SalaryRow} {k2 : Nat},
      genSalariesForEmp σ today base e n id k = .ok (rs, k2) →
      rs.length = n ∧ ∀ s ∈ rs, s.employee_id = e.id ∧ e.hire_date ≤ s.payment_date ∧
        salaryCreateOk s = true ∧ salaryFromBase base s := by
  intro n
  induction n with
  | zero =>
    intro id k rs k2 h
    simp only [genSalariesForEmp, Except.ok.injEq, Prod.mk.injEq] at h
    obtain ⟨h1, _⟩ := h
    subst h1
    simp
  | succ n ih =>
    intro id k rs k2 h
    simp only [genSalariesForEmp] at h
    split at h
    · simp at h
    · rename_i r k1 hm
      split at h
      · simp at h
      · rename_i rs' k2' hg
        simp only [Except.ok.injEq, Prod.mk.injEq] at h
        obtain ⟨h1, _⟩ := h
        subst h1
        obtain ⟨hlen, hall⟩ := ih hg
        obtain ⟨_, hfields⟩ := mkSalary_ok_fields hm
        refine ⟨by simp [hlen], ?_⟩
        intro s hs
        rcases List.mem_cons.1 hs with rfl | hs'
        · exact hfields
        · exact hall s hs'

theorem salaryStage_spec {σ : Oracle} {today : Int} {spe : Nat} :
    ∀ {es : List EmployeeRow} {id k : Nat} {rs : List SalaryRow} {k2 : Nat},
      salaryStage σ today spe es id k = .ok (rs, k2) →
      rs.length = es.length * spe ∧
        ∀ s ∈ rs, ∃ e ∈ es, s.employee_id = e.id ∧ e.hire_date ≤ s.payment_date ∧
          salaryCreateOk s = true := by
  intro es
  induction es with
  | nil =>
    intro id k rs k2 h
    simp only [salaryStage, Except.ok.injEq, Prod.mk.injEq] at h
    obtain ⟨h1, _⟩ := h
    subst h1
    simp
  | cons e es ih =>
    intro id k rs k2 h
    simp only [salaryStage] at h
    split at h
    · simp at h
    · rename_i rs1 k1 hg
      split at h
      · simp at h
      · rename_i rs2 k2' hrest
        simp only [Except.ok.injEq, Prod.mk.injEq] at h
        obtain ⟨h1, _⟩ := h
        subst h1
        obtain ⟨hlen1, hall1⟩ := genSalariesForEmp_spec hg
        obtain ⟨hlen2, hall2⟩ := ih hrest
        refine ⟨?_, ?_⟩
        · rw [List.length_append, hlen1, hlen2, List.length_cons]
          ring
        · intro s hs
          rcases List.mem_append.1 hs with hs1 | hs2
          · obtain ⟨hid, hpay, hok, _⟩ := hall1 s hs1
            exact ⟨e, List.mem_cons_self _ _, hid, hpay, hok⟩
          · obtain ⟨e', he', rest⟩ := hall2 s hs2
            exact ⟨e', List.mem_cons_of_mem _ he', rest⟩

theorem salaryStage_shared_base {σ : Oracle} {today : Int} {spe : Nat} :
    ∀ {es : List EmployeeRow} {id k : Nat} {rs : List SalaryRow} {k2 : Nat},
      (es.map (fun r => r.id)).Nodup →
      salaryStage σ today spe es id k = .ok (rs, k2) →
      ∀ e ∈ es, ∃ base : ℚ, 45000 ≤ base ∧ base ≤ 120000 ∧
        ∀ s ∈ rs, s.employee_id = e.id → salaryFromBase base s := by
  intro es
  induction es with
  | nil =>
    intro id k rs k2 hnd h e he
    simp at he
  | cons e0 es ih =>
    intro id k rs k2 hnd h e he
    simp only [salaryStage] at h
    split at h
    · simp at h
    · rename_i rs1 k1 hg
      split at h
      · simp at h
      · rename_i rs2 k2' hrest
        simp only [Except.ok.injEq, Prod.mk.injEq] at h
        obtain ⟨h1, _⟩ := h
        subst h1
        simp only [List.map_cons, List.nodup_cons] at hnd
        obtain ⟨hnotin, hnd'⟩ := hnd
        obtain ⟨hlen1, hall1⟩ := genSalariesForEmp_spec hg
        rcases List.mem_cons.1 he with rfl | he'
        · refine ⟨uniform σ k 45000 120000, le_uniform σ k (by norm_num),
            uniform_le σ k (by norm_num), ?_⟩
          intro s hs hsid
          rcases List.mem_append.1 hs with hs1 | hs2
          · exact (hall1 s hs1).2.2.2
          · obtain ⟨_, hall2⟩ := salaryStage_spec hrest
            obtain ⟨e', he', hid', _⟩ := hall2 s hs2
            exfalso
            apply hnotin
            rw [← hsid, hid']
            exact List.mem_map_of_mem _ he'
        · obtain ⟨base, hb1, hb2, hbase⟩ := ih hnd' hrest e he'
          refine ⟨base, hb1, hb2, ?_⟩
          intro s hs hsid
          rcases List.mem_append.1 hs with hs1 | hs2
          · exfalso
            apply hnotin
            have := (hall1 s hs1).1
            rw [← this, hsid]
            exact List.mem_map_of_mem _ he'
          · exact hbase s hs2 hsid

/-! ### Pipeline-level lemmas -/

theorem wipe_eq_empty (db0 : DB) :
    ({ db0 with project_employees := [], salaries := [], projects := [],
                employees := [], departments := [] } : DB) = DB.empty := rfl

/-- The wipe stage commits first, so the whole request is insensitive to the
pre-request contents of the store. -/
theorem generate_mock_data_ignores_db (σ : Oracle) (today : Int) (p : Params)
    (db0 : DB) :
    generate_mock_data σ today p db0 = generate_mock_data σ today p DB.empty := rfl

theorem generate_ok_inversion {σ : Oracle} {today : Int} {p : Params} {db0 : DB}
    {st : GenStats}
    (h : (generate_mock_data σ today p db0).1 = .ok st) :
    ∃ depts k1 emps k2 projs k3 asgs k4 sals k5,
      departmentStage σ today p.departments p.employees_per_dept 0 = .ok (depts, k1) ∧
      employeeStage σ today p.employees_per_dept depts 1 k1 = .ok (emps, k2) ∧
      projectStage σ today p.projects_per_dept depts 1 k2 = .ok (projs, k3) ∧
      assignmentStage σ p.employees_per_dept emps projs k3 = .ok (asgs, k4) ∧
      salaryStage σ today p.salaries_per_employee emps 1 k4 = .ok (sals, k5) ∧
      generate_mock_data σ today p db0 = (.ok st, (⟨depts, emps, projs, asgs, sals⟩ : DB)) ∧
      st = ⟨depts.length, emps.length, projs.length,
            emps.length * p.salaries_per_employee⟩ := by
  unfold generate_mock_data at h ⊢
  simp only [] at h ⊢
  cases hds : departmentStage σ today p.departments p.employees_per_dept 0 with
  | error e => simp only [hds] at h; simp at h
  | ok v =>
    obtain ⟨depts, k1⟩ := v
    simp only [hds] at h ⊢
    cases hes : employeeStage σ today p.employees_per_dept depts 1 k1 with
    | error e => simp only [hes] at h; simp at h
    | ok v =>
      obtain ⟨emps, k2⟩ := v
      simp only [hes] at h ⊢
      cases hps : projectStage σ today p.projects_per_dept depts 1 k2 with
      | error e => simp only [hps] at h; simp at h
      | ok v =>
        obtain ⟨projs, k3⟩ := v
        simp only [hps] at h ⊢
        cases has : assignmentStage σ p.employees_per_dept emps projs k3 with
        | error e => simp only [has] at h; simp at h
        | ok v =>
          obtain ⟨asgs, k4⟩ := v
          simp only [has] at h ⊢
          cases hss : salaryStage σ today p.salaries_per_employee emps 1 k4 with
          | error e => simp only [hss] at h; simp at h
          | ok v =>
            obtain ⟨sals, k5⟩ := v
            simp only [hss] at h ⊢
            simp only [Except.ok.injEq] at h
            refine ⟨depts, k1, emps, k2, projs, k3, asgs, k4, sals, k5,
              rfl, hes, hps, has, hss, ?_, h.symm⟩
            rw [← h]

theorem generate_error_state {σ : Oracle} {today : Int} {p : Params} {db0 : DB}
    {e : GenError}
    (h : (generate_mock_data σ today p db0).1 = .error e) :
    (generate_mock_data σ today p db0).2.salaries = [] := by
  unfold generate_mock_data at h ⊢
  simp only [] at h ⊢
  cases hds : departmentStage σ today p.departments p.employees_per_dept 0 with
  | error er => simp only [hds] at h ⊢
  | ok v =>
    obtain ⟨depts, k1⟩ := v
    simp only [hds] at h ⊢
    cases hes : employeeStage σ today p.employees_per_dept depts 1 k1 with
    | error er => simp only [hes] at h ⊢
    | ok v =>
      obtain ⟨emps, k2⟩ := v
      simp only [hes] at h ⊢
      cases hps : projectStage σ today p.projects_per_dept depts 1 k2 with
      | error er => simp only [hps] at h ⊢
      | ok v =>
        obtain ⟨projs, k3⟩ := v
        simp only [hps] at h ⊢
        cases has : assignmentStage σ p.employees_per_dept emps projs k3 with
        | error er => simp only [has] at h ⊢
        | ok v =>
          obtain ⟨asgs, k4⟩ := v
          simp only [has] at h ⊢
          cases hss : salaryStage σ today p.salaries_per_employee emps 1 k4 with
          | error er => simp only [hss] at h ⊢
          | ok v =>
            obtain ⟨sals, k5⟩ := v
            simp only [hss] at h ⊢
            simp at h

/-! ### The suffixed-name path of the department factory -/

theorem space_not_in_canon : ∀ s ∈ departmentNameValues, ' ' ∉ s.data := by decide

theorem synth_not_canon (b : DepartmentName) (s : String) :
    b.value ++ " " ++ s ∉ departmentNameValues := by
  intro hmem
  apply space_not_in_canon _ hmem
  rw [String.data_append, String.data_append]
  exact List.mem_append.2 (.inl (List.mem_append.2 (.inr (by decide))))

theorem mkDepartment_not_canon {σ : Oracle} {today : Int} {epd : Nat} {name : String}
    (hname : name ∉ departmentNameValues) (id k : Nat) :
    mkDepartment σ today epd name id k = .error .validation := by
  unfold mkDepartment
  simp only []
  rw [dateBetween_ok_of_le (by omega)]
  have hno : ¬ (departmentCreateOk
      { id := id, name := name, location := σ.str k ++ ", " ++ σ.str (k+1),
        budget := round2 (uniform σ (k+2) 100000 500000),
        head_of_department := σ.str (k+3),
        established_date := today - 1825 +
          (σ.nat (k+4) % ((today - (today - 1825)).toNat + 1) : Nat),
        employee_count := (epd : Int) } = true) := by
    simp only [departmentCreateOk, Bool.and_eq_true]
    rintro ⟨⟨hc, _⟩, _⟩
    exact hname (List.elem_iff.1 hc)
  simp only [if_neg hno]

theorem mkDepartment_canon_ok (σ : Oracle) (today : Int) (epd : Nat) {name : String}
    (hname : name ∈ departmentNameValues) (id k : Nat) :
    ∃ r k1, mkDepartment σ today epd name id k = .ok (r, k1) := by
  unfold mkDepartment
  simp only []
  rw [dateBetween_ok_of_le (by omega)]
  have hyes : departmentCreateOk
      { id := id, name := name, location := σ.str k ++ ", " ++ σ.str (k+1),
        budget := round2 (uniform σ (k+2) 100000 500000),
        head_of_department := σ.str (k+3),
        established_date := today - 1825 +
          (σ.nat (k+4) % ((today - (today - 1825)).toNat + 1) : Nat),
        employee_count := (epd : Int) } = true := by
    simp only [departmentCreateOk, Bool.and_eq_true]
    refine ⟨⟨List.elem_iff.2 hname, ?_⟩, ?_⟩
    · simp only [decide_eq_true_eq]
      have h1 : (100000 : ℚ) ≤ uniform σ (k+2) 100000 500000 :=
        le_uniform σ (k+2) (by norm_num)
      exact round2_pos_of_one_le (by linarith)
    · simp
  simp only [if_pos hyes]
  exact ⟨_, _, rfl⟩

theorem genCanonDepartments_ok (σ : Oracle) (today : Int) (epd : Nat) :
    ∀ {names : List String}, (∀ n ∈ names, n ∈ departmentNameValues) →
      ∀ id k : Nat, ∃ rs k2,
        genCanonDepartments σ today epd names id k = .ok (rs, k2) := by
  intro names
  induction names with
  | nil => exact fun _ id k => ⟨[], k, rfl⟩
  | cons name rest ih =>
    intro hall id k
    obtain ⟨r, k1, hm⟩ := mkDepartment_canon_ok σ today epd
      (hall name (List.mem_cons_self _ _)) id k
    obtain ⟨rs, k2, hg⟩ := ih (fun n hn => hall n (List.mem_cons_of_mem _ hn)) (id+1) k1
    refine ⟨r :: rs, k2, ?_⟩
    simp only [genCanonDepartments, hm, hg]

theorem genExtraDepartments_err (σ : Oracle) (today : Int) (epd : Nat)
    {shuffled : List DepartmentName} (hne : shuffled ≠ []) (n id k : Nat) :
    genExtraDepartments σ today epd shuffled (n+1) id k = .error .validation := by
  obtain ⟨b, hb, hch⟩ := choice_ok_of_ne_nil σ k hne
  have hri : randint σ (k+1) 1 100 = .ok (1 + σ.nat (k+1) % 100) := by
    simp [randint]
  simp only [genExtraDepartments, hch, hri,
    mkDepartment_not_canon (synth_not_canon b (toString (1 + σ.nat (k+1) % 100))) id (k+2)]

theorem departmentStage_error_of_six (σ : Oracle) (today : Int) {d : Nat}
    (hd : 6 ≤ d) (epd k : Nat) :
    departmentStage σ today d epd k = .error .validation := by
  have hperm := shuffle_perm σ k departmentNameMembers
  have hnames : ∀ n ∈ (((shuffle σ k departmentNameMembers).1.take (min d 5)).map
      DepartmentName.value), n ∈ departmentNameValues := by
    intro n hn
    rcases List.mem_map.1 hn with ⟨b, hb, rfl⟩
    exact List.mem_map_of_mem _ (hperm.mem_iff.1 (List.mem_of_mem_take hb))
  obtain ⟨rs, k2, hok⟩ := genCanonDepartments_ok σ today epd hnames 1
    (shuffle σ k departmentNameMembers).2
  have hne : (shuffle σ k departmentNameMembers).1 ≠ [] := by
    have : (shuffle σ k departmentNameMembers).1.length = 5 := hperm.length_eq
    intro hnil
    rw [hnil] at this
    simp at this
  have hsplit : d - 5 = (d - 6) + 1 := by omega
  unfold departmentStage
  simp only [hok, hsplit, genExtraDepartments_err σ today epd hne (d - 6)
    (rs.length + 1) k2]

/-! ### The assignment stage on departments with fewer than two employees -/

theorem assignmentStage_error_of_small_epd {σ : Oracle} {epd : Nat} (h2 : epd < 2)
    (emps : List EmployeeRow) (p : ProjectRow) (ps : List ProjectRow) (k : Nat) :
    assignmentStage σ epd emps (p :: ps) k = .error .emptyRandint := by
  have hri : randint σ k 2 (min 5 epd) = .error .emptyRandint :=
    randint_error (by omega)
  have hfp : assignmentsForProject σ epd emps p k = .error .emptyRandint := by
    unfold assignmentsForProject
    simp only [hri]
  simp only [assignmentStage, hfp]

/-! ### The empty request -/

theorem departmentStage_zero (σ : Oracle) (today : Int) (epd k : Nat) :
    departmentStage σ today 0 epd k =
      .ok ([], (shuffle σ k departmentNameMembers).2) := by
  unfold departmentStage
  simp [genCanonDepartments, genExtraDepartments]

/-! ### Shared success-shape lemma -/

theorem generate_ok_lengths {σ : Oracle} {today : Int} {p : Params} {db0 : DB}
    {st : GenStats} (h : (generate_mock_data σ today p db0).1 = .ok st) :
    (generate_mock_data σ today p db0).2.departments.length = p.departments ∧
    (generate_mock_data σ today p db0).2.employees.length =
      p.departments * p.employees_per_dept ∧
    (generate_mock_data σ today p db0).2.projects.length =
      p.departments * p.projects_per_dept ∧
    (generate_mock_data σ today p db0).2.salaries.length =
      p.departments * p.employees_per_dept * p.salaries_per_employee ∧
    st = ⟨(generate_mock_data σ today p db0).2.departments.length,
          (generate_mock_data σ today p db0).2.employees.length,
          (generate_mock_data σ today p db0).2.projects.length,
          (generate_mock_data σ today p db0).2.salaries.length⟩ := by
  obtain ⟨depts, k1, emps, k2, projs, k3, asgs, k4, sals, k5,
    hds, hes, hps, has, hss, heq, hst⟩ := generate_ok_inversion h
  obtain ⟨_, hdlen⟩ := departmentStage_spec hds
  obtain ⟨_, helen, _⟩ := employeeStage_spec hes
  obtain ⟨_, hplen⟩ := projectStage_spec hps
  obtain ⟨hslen, _⟩ := salaryStage_spec hss
  rw [heq]
  subst hst
  refine ⟨hdlen, ?_, ?_, ?_, ?_⟩
  · rw [show ((⟨depts, emps, projs, asgs, sals⟩ : DB)).employees = emps from rfl,
      helen, hdlen]
  · rw [show ((⟨depts, emps, projs, asgs, sals⟩ : DB)).projects = projs from rfl,
      hplen, hdlen]
  · rw [show ((⟨depts, emps, projs, asgs, sals⟩ : DB)).salaries = sals from rfl,
      hslen, helen, hdlen]
  · simp [hslen]

/-! ### The claims -/

/-- C10: calling the generation endpoint with departments = 0 succeeds, still
deletes every existing row of all five tables (acting as a pure reset),
creates no new rows, and returns a success payload whose four stats counts
are all 0. -/
theorem c10_zero_departments_pure_reset (σ : Oracle) (today : Int)
    (epd ppd spe : Nat) (db0 : DB) :
    generate_mock_data σ today ⟨0, epd, ppd, spe⟩ db0 =
      (.ok ⟨0, 0, 0, 0⟩, DB.empty) := by
  unfold generate_mock_data
  simp only [departmentStage_zero]
  simp [employeeStage, projectStage, assignmentStage, salaryStage, DB.empty]

/-- C2: every successful generation request persists exactly `departments`
department rows, `departments*employees_per_dept` employee rows,
`departments*projects_per_dept` project rows and
`departments*employees_per_dept*salaries_per_employee` salary rows, and the
returned stats object reports exactly these four table sizes. -/
theorem c2_success_counts (σ : Oracle) (today : Int) (p : Params) (db0 : DB)
    (st : GenStats) (h : (generate_mock_data σ today p db0).1 = .ok st) :
    (generate_mock_data σ today p db0).2.departments.length = p.departments ∧
    (generate_mock_data σ today p db0).2.employees.length =
      p.departments * p.employees_per_dept ∧
    (generate_mock_data σ today p db0).2.projects.length =
      p.departments * p.projects_per_dept ∧
    (generate_mock_data σ today p db0).2.salaries.length =
      p.departments * p.employees_per_dept * p.salaries_per_employee ∧
    st = ⟨(generate_mock_data σ today p db0).2.departments.length,
          (generate_mock_data σ today p db0).2.employees.length,
          (generate_mock_data σ today p db0).2.projects.length,
          (generate_mock_data σ today p db0).2.salaries.length⟩ :=
  generate_ok_lengths h

/-- Witness for C2 at the spec example generate(2, 3, 1, 2): 2 departments,
6 employees, 2 projects, 12 salaries. -/
theorem c2_success_counts_witness :
    (generate_mock_data demoOracle 0 ⟨2, 3, 1, 2⟩ DB.empty).2.departments.length = 2 ∧
    (generate_mock_data demoOracle 0 ⟨2, 3, 1, 2⟩ DB.empty).2.employees.length = 2 * 3 ∧
    (generate_mock_data demoOracle 0 ⟨2, 3, 1, 2⟩ DB.empty).2.projects.length = 2 * 1 ∧
    (generate_mock_data demoOracle 0 ⟨2, 3, 1, 2⟩ DB.empty).2.salaries.length = 2 * 3 * 2 ∧
    (⟨2, 6, 2, 12⟩ : GenStats) =
      ⟨(generate_mock_data demoOracle 0 ⟨2, 3, 1, 2⟩ DB.empty).2.departments.length,
       (generate_mock_data demoOracle 0 ⟨2, 3, 1, 2⟩ DB.empty).2.employees.length,
       (generate_mock_data demoOracle 0 ⟨2, 3, 1, 2⟩ DB.empty).2.projects.length,
       (generate_mock_data demoOracle 0 ⟨2, 3, 1, 2⟩ DB.empty).2.salaries.length⟩ :=
  c2_success_counts demoOracle 0 ⟨2, 3, 1, 2⟩ DB.empty ⟨2, 6, 2, 12⟩ (by decide)

/-- C3: whenever employees_per_dept < 2 while at least one project must be
assigned, the request fails with an explicit error and no assignment rows
are persisted (never fewer than 2 silently created assignments). -/
theorem c3_insufficient_candidates (σ : Oracle) (today : Int) (p : Params)
    (db0 : DB) (hepd : p.employees_per_dept < 2) (hd : 1 ≤ p.departments)
    (hppd : 1 ≤ p.projects_per_dept) :
    (∃ e, (generate_mock_data σ today p db0).1 = .error e) ∧
    (generate_mock_data σ today p db0).2.project_employees = [] := by
  unfold generate_mock_data
  simp only []
  cases hds : departmentStage σ today p.departments p.employees_per_dept 0 with
  | error e => exact ⟨⟨e, rfl⟩, rfl⟩
  | ok v =>
    obtain ⟨depts, k1⟩ := v
    simp only []
    cases hes : employeeStage σ today p.employees_per_dept depts 1 k1 with
    | error e => exact ⟨⟨e, rfl⟩, rfl⟩
    | ok v =>
      obtain ⟨emps, k2⟩ := v
      simp only []
      cases hps : projectStage σ today p.projects_per_dept depts 1 k2 with
      | error e => exact ⟨⟨e, rfl⟩, rfl⟩
      | ok v =>
        obtain ⟨projs, k3⟩ := v
        simp only []
        obtain ⟨_, hdlen⟩ := departmentStage_spec hds
        obtain ⟨_, hplen⟩ := projectStage_spec hps
        cases projs with
        | nil =>
          exfalso
          have hpos : 0 < depts.length * p.projects_per_dept :=
            Nat.mul_pos (by omega) (by omega)
          simp only [List.length_nil] at hplen
          omega
        | cons pr ps =>
          rw [assignmentStage_error_of_small_epd hepd emps pr ps k3]
          refine ⟨⟨.emptyRandint, ?_⟩, ?_⟩ <;> trivial

/-- Witness for C3 at the spec failure example generate(1, 1, 1, 1). -/
theorem c3_insufficient_candidates_witness :
    (∃ e, (generate_mock_data demoOracle 0 ⟨1, 1, 1, 1⟩ DB.empty).1 = .error e) ∧
    (generate_mock_data demoOracle 0 ⟨1, 1, 1, 1⟩ DB.empty).2.project_employees = [] :=
  c3_insufficient_candidates demoOracle 0 ⟨1, 1, 1, 1⟩ DB.empty (by decide)
    (by decide) (by decide)

/-- C4 (code evaluation at the failing input): every request asking for more
than five departments fails with a validation error -- the name synthesized
for the sixth department (canonical name plus numeric suffix) is not a member
of the DepartmentName enum, so DepartmentCreate rejects it, no suffixed-name
department is ever created, and the store is left wiped. -/
theorem c4_sixth_department_validation_failure (σ : Oracle) (today : Int)
    (p : Params) (db0 : DB) (hd : 6 ≤ p.departments) :
    (generate_mock_data σ today p db0).1 = .error .validation ∧
    (generate_mock_data σ today p db0).2 = DB.empty := by
  unfold generate_mock_data
  simp only [departmentStage_error_of_six σ today hd p.employees_per_dept 0]
  exact ⟨trivial, rfl⟩

/-- Witness for the C4 failing input: departments = 6 (other parameters at
their defaults). -/
theorem c4_sixth_department_validation_failure_witness :
    (generate_mock_data demoOracle 0 ⟨6, 5, 2, 3⟩ DB.empty).1 = .error .validation ∧
    (generate_mock_data demoOracle 0 ⟨6, 5, 2, 3⟩ DB.empty).2 = DB.empty :=
  c4_sixth_department_validation_failure demoOracle 0 ⟨6, 5, 2, 3⟩ DB.empty (by decide)

/-- C5: in every successful request, every persisted employee's hire_date is
on or after the established_date of its owning department (the department row
whose id it references) and on or before today. -/
theorem c5_hire_date_bounds (σ : Oracle) (today : Int) (p : Params) (db0 : DB)
    (st : GenStats) (h : (generate_mock_data σ today p db0).1 = .ok st) :
    ∀ e ∈ (generate_mock_data σ today p db0).2.employees,
      ∀ d ∈ (generate_mock_data σ today p db0).2.departments,
        d.id = e.department_id →
          d.established_date ≤ e.hire_date ∧ e.hire_date ≤ today := by
  obtain ⟨depts, k1, emps, k2, projs, k3, asgs, k4, sals, k5,
    hds, hes, hps, has, hss, heq, hst⟩ := generate_ok_inversion h
  rw [heq]
  intro e he d hd hid
  obtain ⟨_, _, hall⟩ := employeeStage_spec hes
  obtain ⟨d0, hd0, hdep, hlo, hhi⟩ := hall e he
  have hnd := departmentStage_ids_nodup hds
  have hde : d = d0 := List.inj_on_of_nodup_map hnd hd hd0 (by rw [hid, hdep])
  subst hde
  exact ⟨hlo, hhi⟩

/-- Witness for C5 at generate(1, 2, 1, 1), instantiated at the persisted
employee 1 and its department. -/
theorem c5_hire_date_bounds_witness :
    (⟨1, "HR", "a@b, a@b", 100000, "a@b", -1825, 2⟩ : DepartmentRow).established_date ≤
        (⟨1, "a@b", "a@b", "a@b", "+1-200-200-1000", -1825, "Software Engineer", 1⟩ :
          EmployeeRow).hire_date ∧
      (⟨1, "a@b", "a@b", "a@b", "+1-200-200-1000", -1825, "Software Engineer", 1⟩ :
        EmployeeRow).hire_date ≤ 0 :=
  c5_hire_date_bounds demoOracle 0 ⟨1, 2, 1, 1⟩ DB.empty ⟨1, 2, 1, 2⟩ (by decide)
    ⟨1, "a@b", "a@b", "a@b", "+1-200-200-1000", -1825, "Software Engineer", 1⟩ (by decide)
    ⟨1, "HR", "a@b, a@b", 100000, "a@b", -1825, 2⟩ (by decide) (by decide)

/-- C6: in every successful request, every persisted assignment links an
employee and a project with the same department_id. -/
theorem c6_assignment_same_department (σ : Oracle) (today : Int) (p : Params)
    (db0 : DB) (st : GenStats)
    (h : (generate_mock_data σ today p db0).1 = .ok st) :
    ∀ a ∈ (generate_mock_data σ today p db0).2.project_employees,
      ∀ e ∈ (generate_mock_data σ today p db0).2.employees,
        ∀ pr ∈ (generate_mock_data σ today p db0).2.projects,
          a.employee_id = e.id → a.project_id = pr.id →
            e.department_id = pr.department_id := by
  obtain ⟨depts, k1, emps, k2, projs, k3, asgs, k4, sals, k5,
    hds, hes, hps, has, hss, heq, hst⟩ := generate_ok_inversion h
  rw [heq]
  intro a ha e he pr hpr hae hap
  obtain ⟨pr0, hpr0, e0, he0, hdep, haid, hpid⟩ := assignmentStage_spec has a ha
  have hnde := employeeStage_ids_nodup hes
  have hndp := projectStage_ids_nodup hps
  have h1 : e = e0 := List.inj_on_of_nodup_map hnde he he0 (by rw [← hae, haid])
  have h2 : pr = pr0 := List.inj_on_of_nodup_map hndp hpr hpr0 (by rw [← hap, hpid])
  subst h1
  subst h2
  exact hdep

/-- Witness for C6 at generate(1, 2, 1, 1), instantiated at the first
persisted assignment and its employee and project rows. -/
theorem c6_assignment_same_department_witness :
    (⟨1, "a@b", "a@b", "a@b", "+1-200-200-1000", -1825, "Software Engineer", 1⟩ :
        EmployeeRow).department_id =
      (⟨1, "Project a@b", "a@b", -365, -335, 20000, .planning, 1⟩ :
        ProjectRow).department_id :=
  c6_assignment_same_department demoOracle 0 ⟨1, 2, 1, 1⟩ DB.empty ⟨1, 2, 1, 2⟩
    (by decide) ⟨1, 1, "Lead", -365⟩ (by decide)
    ⟨1, "a@b", "a@b", "a@b", "+1-200-200-1000", -1825, "Software Engineer", 1⟩ (by decide)
    ⟨1, "Project a@b", "a@b", -365, -335, 20000, .planning, 1⟩ (by decide)
    (by decide) (by decide)

/-- C7: in every successful request, every persisted salary has positive
amount, non-negative tax_deduction and bonus, and a payment_date on or after
the hire_date of its owning employee. -/
theorem c7_salary_fields (σ : Oracle) (today : Int) (p : Params) (db0 : DB)
    (st : GenStats) (h : (generate_mock_data σ today p db0).1 = .ok st) :
    ∀ s ∈ (generate_mock_data σ today p db0).2.salaries,
      0 < s.amount ∧ 0 ≤ s.tax_deduction ∧ 0 ≤ s.bonus ∧
        ∀ e ∈ (generate_mock_data σ today p db0).2.employees,
          e.id = s.employee_id → e.hire_date ≤ s.payment_date := by
  obtain ⟨depts, k1, emps, k2, projs, k3, asgs, k4, sals, k5,
    hds, hes, hps, has, hss, heq, hst⟩ := generate_ok_inversion h
  rw [heq]
  intro s hs
  obtain ⟨_, hall⟩ := salaryStage_spec hss
  obtain ⟨e0, he0, hsid, hpay, hokrow⟩ := hall s hs
  simp only [salaryCreateOk, Bool.and_eq_true, decide_eq_true_eq] at hokrow
  obtain ⟨⟨ham, htax⟩, hbon⟩ := hokrow
  refine ⟨ham, htax, hbon, ?_⟩
  intro e he hid
  have hnde := employeeStage_ids_nodup hes
  have h1 : e = e0 := List.inj_on_of_nodup_map hnde he he0 (by rw [hid, hsid])
  subst h1
  exact hpay

/-- Witness for C7 at generate(1, 2, 1, 1), instantiated at the first
persisted salary row and its employee. -/
theorem c7_salary_fields_witness :
    0 < (⟨1, 1, 40500, -1825, 7200, 0, .bankTransfer⟩ : SalaryRow).amount ∧
    0 ≤ (⟨1, 1, 40500, -1825, 7200, 0, .bankTransfer⟩ : SalaryRow).tax_deduction ∧
    0 ≤ (⟨1, 1, 40500, -1825, 7200, 0, .bankTransfer⟩ : SalaryRow).bonus ∧
    (⟨1, "a@b", "a@b", "a@b", "+1-200-200-1000", -1825, "Software Engineer", 1⟩ :
        EmployeeRow).hire_date ≤
      (⟨1, 1, 40500, -1825, 7200, 0, .bankTransfer⟩ : SalaryRow).payment_date := by
  have happ := c7_salary_fields demoOracle 0 ⟨1, 2, 1, 1⟩ DB.empty ⟨1, 2, 1, 2⟩
    (by decide) ⟨1, 1, 40500, -1825, 7200, 0, .bankTransfer⟩ (by decide)
  exact ⟨happ.1, happ.2.1, happ.2.2.1, happ.2.2.2
    ⟨1, "a@b", "a@b", "a@b", "+1-200-200-1000", -1825, "Software Engineer", 1⟩
    (by decide) (by decide)⟩

/-- C8: in every successful request, all salary rows of one employee are
derived from a single base salary value in [45000, 120000] drawn once for
that employee: amount = round2(base * u) with u in [0.9, 1.1],
tax_deduction = round2(base * 0.2 * v) with v in [0.8, 1.2], and
bonus = round2(base * 0.1 * w) with w in [0, 1], the u, v, w being fresh
draws for each row. -/
theorem c8_salary_shared_base (σ : Oracle) (today : Int) (p : Params)
    (db0 : DB) (st : GenStats)
    (h : (generate_mock_data σ today p db0).1 = .ok st) :
    ∀ e ∈ (generate_mock_data σ today p db0).2.employees,
      ∃ base : ℚ, 45000 ≤ base ∧ base ≤ 120000 ∧
        ∀ s ∈ (generate_mock_data σ today p db0).2.salaries,
          s.employee_id = e.id → salaryFromBase base s := by
  obtain ⟨depts, k1, emps, k2, projs, k3, asgs, k4, sals, k5,
    hds, hes, hps, has, hss, heq, hst⟩ := generate_ok_inversion h
  rw [heq]
  exact salaryStage_shared_base (employeeStage_ids_nodup hes) hss

/-- Witness for C8 at generate(1, 2, 1, 1), instantiated at the persisted
employee 1. -/
theorem c8_salary_shared_base_witness :
    ∃ base : ℚ, 45000 ≤ base ∧ base ≤ 120000 ∧
      ∀ s ∈ (generate_mock_data demoOracle 0 ⟨1, 2, 1, 1⟩ DB.empty).2.salaries,
        s.employee_id =
            (⟨1, "a@b", "a@b", "a@b", "+1-200-200-1000", -1825, "Software Engineer", 1⟩ :
              EmployeeRow).id →
          salaryFromBase base s :=
  c8_salary_shared_base demoOracle 0 ⟨1, 2, 1, 1⟩ DB.empty ⟨1, 2, 1, 2⟩ (by decide)
    ⟨1, "a@b", "a@b", "a@b", "+1-200-200-1000", -1825, "Software Engineer", 1⟩ (by decide)

/-- C1 counterexample: the claim "on any exception the store is returned to
exactly the state it had before the request" is false.  The concrete request
generate(1, 1, 1, 1) against a store holding one department row fails in the
assignment stage, yet afterwards the pre-existing department row is gone
(the wipe was committed) and freshly inserted rows remain persisted. -/
theorem c1_counterexample :
    (generate_mock_data demoOracle 0 ⟨1, 1, 1, 1⟩ dbPre).1 = .error .emptyRandint ∧
    (generate_mock_data demoOracle 0 ⟨1, 1, 1, 1⟩ dbPre).2 ≠ dbPre ∧
    (generate_mock_data demoOracle 0 ⟨1, 1, 1, 1⟩ dbPre).2.departments ≠
      dbPre.departments ∧
    (generate_mock_data demoOracle 0 ⟨1, 1, 1, 1⟩ dbPre).2.employees ≠ [] := by
  refine ⟨by decide, by decide, by decide, by decide⟩

/-- C1 amended: on any exception the caller receives a single failure result
and never a partial stats object, and the store is rolled back only to the
last commit: the final state is independent of the pre-request contents (the
committed wipe and the committed earlier stages persist, so the store does
NOT return to its pre-request state) and contains no salary rows. -/
theorem c1_failure_last_commit (σ : Oracle) (today : Int) (p : Params)
    (db0 : DB) (e : GenError)
    (h : (generate_mock_data σ today p db0).1 = .error e) :
    (generate_mock_data σ today p db0).2 =
        (generate_mock_data σ today p DB.empty).2 ∧
      (generate_mock_data σ today p db0).2.salaries = [] := by
  exact ⟨by rw [generate_mock_data_ignores_db], generate_error_state h⟩

/-- Witness for the amended C1 at the failing request generate(1, 1, 1, 1)
against a non-empty store. -/
theorem c1_failure_last_commit_witness :
    (generate_mock_data demoOracle 0 ⟨1, 1, 1, 1⟩ dbPre).2 =
        (generate_mock_data demoOracle 0 ⟨1, 1, 1, 1⟩ DB.empty).2 ∧
      (generate_mock_data demoOracle 0 ⟨1, 1, 1, 1⟩ dbPre).2.salaries = [] :=
  c1_failure_last_commit demoOracle 0 ⟨1, 1, 1, 1⟩ dbPre .emptyRandint (by decide)

/-- C9: after two back-to-back successful generation requests, the store
holds exactly the data of the second request: the final state is the one the
second request generates from an empty store (so nothing persisted by the
first request survives), and the four table sizes are exactly the second
request's requested counts. -/
theorem c9_second_generation_wins (σ1 σ2 : Oracle) (t1 t2 : Int)
    (p1 p2 : Params) (db0 : DB) (s1 s2 : GenStats)
    (h1 : (generate_mock_data σ1 t1 p1 db0).1 = .ok s1)
    (h2 : (generate_mock_data σ2 t2 p2 (generate_mock_data σ1 t1 p1 db0).2).1 =
      .ok s2) :
    (generate_mock_data σ2 t2 p2 (generate_mock_data σ1 t1 p1 db0).2).2 =
        (generate_mock_data σ2 t2 p2 DB.empty).2 ∧
      (generate_mock_data σ2 t2 p2
          (generate_mock_data σ1 t1 p1 db0).2).2.departments.length =
        p2.departments ∧
      (generate_mock_data σ2 t2 p2
          (generate_mock_data σ1 t1 p1 db0).2).2.employees.length =
        p2.departments * p2.employees_per_dept ∧
      (generate_mock_data σ2 t2 p2
          (generate_mock_data σ1 t1 p1 db0).2).2.projects.length =
        p2.departments * p2.projects_per_dept ∧
      (generate_mock_data σ2 t2 p2
          (generate_mock_data σ1 t1 p1 db0).2).2.salaries.length =
        p2.departments * p2.employees_per_dept * p2.salaries_per_employee := by
  obtain ⟨ha, hb, hc, hd, _⟩ := generate_ok_lengths h2
  exact ⟨by rw [generate_mock_data_ignores_db], ha, hb, hc, hd⟩

/-- Witness for C9: two successful back-to-back runs, generate(1, 2, 1, 1)
then generate(2, 3, 1, 2). -/
theorem c9_second_generation_wins_witness :
    (generate_mock_data demoOracle 0 ⟨2, 3, 1, 2⟩
          (generate_mock_data demoOracle 0 ⟨1, 2, 1, 1⟩ DB.empty).2).2 =
        (generate_mock_data demoOracle 0 ⟨2, 3, 1, 2⟩ DB.empty).2 ∧
      (generate_mock_data demoOracle 0 ⟨2, 3, 1, 2⟩
          (generate_mock_data demoOracle 0 ⟨1, 2, 1, 1⟩ DB.empty).2).2.departments.length =
        2 ∧
      (generate_mock_data demoOracle 0 ⟨2, 3, 1, 2⟩
          (generate_mock_data demoOracle 0 ⟨1, 2, 1, 1⟩ DB.empty).2).2.employees.length =
        2 * 3 ∧
      (generate_mock_data demoOracle 0 ⟨2, 3, 1, 2⟩
          (generate_mock_data demoOracle 0 ⟨1, 2, 1, 1⟩ DB.empty).2).2.projects.length =
        2 * 1 ∧
      (generate_mock_data demoOracle 0 ⟨2, 3, 1, 2⟩
          (generate_mock_data demoOracle 0 ⟨1, 2, 1, 1⟩ DB.empty).2).2.salaries.length =
        2 * 3 * 2 :=
  c9_second_generation_wins demoOracle demoOracle 0 0 ⟨1, 2, 1, 1⟩ ⟨2, 3, 1, 2⟩
    DB.empty ⟨1, 2, 1, 2⟩ ⟨2, 6, 2, 12⟩ (by decide) (by decide)

end MockGen
